import Mathlib

/-!
# iran_ban_resolver: a CoreDNS plugin

Shallow embedding of `iranBanResolver.go` and `setup.go`.

* Go strings are modelled by `String`; the substring and suffix tests are taken on the
  sequence of Unicode scalars (`String.data`), which for valid UTF-8 text gives the same answer
  as Go's byte-wise test.  `len` is the byte length, as in Go.
* Functions of other packages (the Go standard library, `miekg/dns`, `coredns/request`, the
  caddyfile dispenser) are either modelled next to the code that calls them or supplied by the
  record `Lib` of collaborators.
* Effects of `ServeDNS` (log lines, the upstream exchange, the reply written to the response
  writer, the call of the next plugin) are recorded, in order, in a trace of `Event`s.
* The locks of the store are not modelled: every function below is one sequential run.
-/

namespace IranBan

/-! ## Go strings -/

/-- Go `len(s)`: the number of bytes of `s`. -/
def len (s : String) : Nat := s.utf8ByteSize

/-- Go `strings.Contains(s, substr)`: `substr` occurs in `s` as a contiguous block. -/
def Contains (s substr : String) : Bool := decide (substr.data <:+: s.data)

/-- Go `strings.HasSuffix(s, suffix)`. -/
def HasSuffix (s suffix : String) : Bool := decide (suffix.data <:+ s.data)

/-- Go `strings.TrimSuffix(s, suffix)`: `s` without the trailing `suffix`, or `s` itself when it
does not end in `suffix`. -/
def TrimSuffix (s suffix : String) : String :=
  if HasSuffix s suffix then ⟨s.data.take (s.data.length - suffix.data.length)⟩ else s

/-! ## Time -/

/-- Go `time.Time`, reduced to the instant it denotes (nanoseconds after the zero `Time`). -/
structure Time where
  instant : Int
deriving DecidableEq, Repr

/-- The zero value of `time.Time`. -/
def Time.zero : Time := ⟨0⟩

/-- Go `t.Equal(u)`: the two values denote the same instant. -/
def Time.Equal (t u : Time) : Bool := decide (t.instant = u.instant)

/-- Go `time.Duration`: a signed count of nanoseconds. -/
abbrev Duration := Int

/-- Go `time.Second`. -/
def Second : Duration := 1000000000

/-! ## DNS messages (`miekg/dns`) -/

/-- Go `error`, by its message. -/
abbrev Error := String

/-- Go `dns.Question`. -/
structure Question where
  Name : String
  Qtype : Nat
  Qclass : Nat
deriving DecidableEq, Repr

/-- Go `dns.RR`, a resource record. -/
structure RR where
  Name : String
  Rrtype : Nat
  Class : Nat
  Ttl : Nat
  Rdata : String
deriving DecidableEq, Repr

/-- Go `dns.Msg`: the header bits and the four sections. -/
structure Msg where
  Id : Nat
  Response : Bool
  Opcode : Int
  Authoritative : Bool
  Truncated : Bool
  RecursionDesired : Bool
  RecursionAvailable : Bool
  Zero : Bool
  AuthenticatedData : Bool
  CheckingDisabled : Bool
  Rcode : Int
  Question : List Question
  Answer : List RR
  Ns : List RR
  Extra : List RR
deriving DecidableEq, Repr

/-- Go `new(dns.Msg)`: the zero message. -/
def Msg.new : Msg :=
  { Id := 0, Response := false, Opcode := 0, Authoritative := false, Truncated := false,
    RecursionDesired := false, RecursionAvailable := false, Zero := false,
    AuthenticatedData := false, CheckingDisabled := false, Rcode := 0,
    Question := [], Answer := [], Ns := [], Extra := [] }

def TypeA : Nat := 1
def TypeTXT : Nat := 16
def TypeAAAA : Nat := 28
def ClassINET : Nat := 1
def OpcodeQuery : Int := 0
def RcodeSuccess : Int := 0
def RcodeServerFailure : Int := 2

/-- Go `(*dns.Msg).SetReply(request)`: the id and opcode of the request, the response bit, for a
standard query the rd and cd bits, rcode success, and the first question of the request. -/
def Msg.SetReply (m request : Msg) : Msg :=
  let m := { m with Id := request.Id, Response := true, Opcode := request.Opcode }
  let m := if m.Opcode = OpcodeQuery then
      { m with RecursionDesired := request.RecursionDesired,
               CheckingDisabled := request.CheckingDisabled }
    else m
  let m := { m with Rcode := RcodeSuccess }
  match request.Question with
  | [] => m
  | q :: _ => { m with Question := [q] }

/-! ## Collaborators -/

/-- Functions of other packages whose results the plugin only passes on. -/
structure Lib where
  /-- Go `strings.ToLower`. -/
  ToLower : String → String
  /-- Go `dns.Name(s).String()`: the presentation form of a domain name. -/
  NameString : String → String
  /-- Go `dns.Exchange(m, address)`: one synchronous query to an upstream server. -/
  Exchange : Msg → String → Except Error Msg
  /-- Go `time.ParseDuration`. -/
  ParseDuration : String → Except Error Duration
  /-- Go `net.ResolveUDPAddr(network, address)`; the address is kept by its `String()`. -/
  ResolveUDPAddr : String → String → Except Error String

/-- Go `plugin.Handler`: the status and error its `ServeDNS` returns for a request. -/
structure Handler where
  ServeDNS : Msg → Int × Option Error

/-- Go `request.Request.Name()`: the lower-cased name of the first question, `"."` when the
message has no question. -/
def Request.Name (lib : Lib) (r : Msg) : String :=
  match r.Question with
  | [] => "."
  | q :: _ => lib.ToLower (lib.NameString q.Name)

/-- Go `request.Request.QType()`: the type of the first question, `0` when there is none. -/
def Request.QType (r : Msg) : Nat :=
  match r.Question with
  | [] => 0
  | q :: _ => q.Qtype

/-! ## The store and the query path (`iranBanResolver.go`) -/

/-- Go `IranBanResolver`.  `resolveFrom` is the `net.Addr`, kept by its `String()`; every store
of this package has one (`New` sets it, `parseResolveFrom` replaces it by a resolved address). -/
structure IranBanResolver where
  hostsPath : String
  reload : Duration
  resolveFrom : String
  hosts : String
  hostsMTime : Time
  hostsSize : Int
  Next : Option Handler

/-- Go `New`. -/
def New : IranBanResolver :=
  { hostsPath := "",
    reload := 5 * Second,
    resolveFrom := "8.8.8.8:53",
    hosts := "/etc/hosts_dir/hosts-ban",
    hostsMTime := Time.zero,
    hostsSize := 0,
    Next := none }

/-- Go `(*IranBanResolver).Name`. -/
def IranBanResolver.Name (_ibr : IranBanResolver) : String := "iran_ban_resolver"

/-- What `ServeDNS` does to the outside, in order. -/
inductive Event where
  /-- Go `fmt.Printf` of the given text. -/
  | Printf (text : String)
  /-- Go `dns.Exchange(m, address)`. -/
  | Exchange (m : Msg) (address : String)
  /-- Go `w.WriteMsg(m)`. -/
  | WriteMsg (m : Msg)
  /-- Go `next.ServeDNS(ctx, w, r)`: control handed to the next plugin. -/
  | Next (r : Msg)
deriving DecidableEq, Repr

/-- A run of a handler: its trace and the `(int, error)` pair it returns. -/
structure Outcome where
  trace : List Event
  rcode : Int
  err : Option Error
deriving DecidableEq, Repr

/-- Go `plugin.Error(name, err)`. -/
def pluginError (name : String) (err : Error) : Error := "plugin/" ++ name ++ ": " ++ err

/-- Go `plugin.NextOrFailure(name, next, ctx, w, r)`: the result of the next plugin, or a server
failure when there is none. -/
def NextOrFailure (name : String) (next : Option Handler) (r : Msg) : Outcome :=
  match next with
  | some h => { trace := [Event.Next r], rcode := (h.ServeDNS r).1, err := (h.ServeDNS r).2 }
  | none => { trace := [], rcode := RcodeServerFailure,
              err := some (pluginError name "no next plugin found") }

/-- Prepends the trace `t` to a run. -/
def Outcome.after (t : List Event) (o : Outcome) : Outcome := { o with trace := t ++ o.trace }

def infoLine (qname address : String) : String :=
  "[IBR-INFO] \x7b" ++ qname ++ "\x7d is in banned list, resolve it from " ++ address ++ "\n"

def errorLine (qname address : String) : String :=
  "[IBR-ERROR] \x7b" ++ qname ++ "\x7d is in banned list, resolve it from " ++ address ++ "\n"

/-- The tail of `ServeDNS` after the `switch`: build the reply, write it, report success. -/
def respond (r : Msg) (answers : List RR) : Outcome :=
  let m := Msg.new
  let m := m.SetReply r
  let m := { m with Authoritative := true }
  let m := { m with Answer := answers }
  { trace := [Event.WriteMsg m], rcode := RcodeSuccess, err := none }

/-- The body shared by `case dns.TypeA` and `case dns.TypeAAAA`, followed by the tail. -/
def forward (lib : Lib) (ibr : IranBanResolver) (qname : String) (r : Msg) : Outcome :=
  match lib.Exchange r ibr.resolveFrom with
  | .error _ =>
    (NextOrFailure ibr.Name ibr.Next r).after
      [Event.Exchange r ibr.resolveFrom, Event.Printf (errorLine qname ibr.resolveFrom)]
  | .ok resp =>
    (respond r resp.Answer).after [Event.Exchange r ibr.resolveFrom]

/-- Go `(*IranBanResolver).ServeDNS`. -/
def ServeDNS (lib : Lib) (ibr : IranBanResolver) (r : Msg) : Outcome :=
  let qname := Request.Name lib r
  if Contains ibr.hosts (TrimSuffix qname ".") then
    (if Request.QType r = TypeA then forward lib ibr qname r
     else if Request.QType r = TypeAAAA then forward lib ibr qname r
     else NextOrFailure ibr.Name ibr.Next r).after
      [Event.Printf (infoLine qname ibr.resolveFrom)]
  else
    NextOrFailure ibr.Name ibr.Next r

/-- The upstream exchanges of a trace. -/
def exchanges (t : List Event) : List (Msg × String) :=
  t.filterMap fun e => match e with
    | Event.Exchange m a => some (m, a)
    | _ => none

/-- The replies a trace writes to the response writer. -/
def written (t : List Event) : List Msg :=
  t.filterMap fun e => match e with
    | Event.WriteMsg m => some m
    | _ => none

/-- The requests a trace hands to the next plugin. -/
def deferred (t : List Event) : List Msg :=
  t.filterMap fun e => match e with
    | Event.Next r => some r
    | _ => none

/-! ## The list store (`readHosts`) -/

/-- Go `os.FileInfo` of the opened file: `ModTime()` and `Size()`. -/
structure FileInfo where
  ModTime : Time
  Size : Int
deriving DecidableEq, Repr

/-- What `bufio.NewScanner(file)` yields: `lines` are the texts of the successive successful
`Scan()` calls, and `failed` tells that the scan stopped on an error (`scanner.Err() != nil`:
a read error, or a line too long for the scanner) instead of at the end of the file.
`readHosts` never looks at `scanner.Err()`. -/
structure Scan where
  lines : List String
  failed : Bool
deriving DecidableEq, Repr

/-- What `readHosts` can observe of the file at a path. -/
inductive File where
  /-- Go `os.Open` returns an error. -/
  | openFails
  /-- Go `os.Open` succeeds and `file.Stat()` returns an error. -/
  | statFails
  /-- Both succeed. -/
  | accessible (stat : FileInfo) (scan : Scan)
deriving DecidableEq, Repr

/-- The file system at one moment: the file found at each path. -/
abbrev FileSystem := String → File

/-- The loop `for scanner.Scan() { content += scanner.Text() + "\n" }`, from the empty
`content`. -/
def scanLoop (lines : List String) : String :=
  lines.foldl (fun content text => content ++ (text ++ "\n")) ""

/-- Go `(*IranBanResolver).readHosts`. -/
def readHosts (fs : FileSystem) (ibr : IranBanResolver) : IranBanResolver :=
  match fs ibr.hostsPath with
  | File.openFails => ibr
  | File.statFails => ibr
  | File.accessible stat scan =>
    let size := ibr.hostsSize
    if ibr.hostsMTime.Equal stat.ModTime && size == stat.Size then
      ibr
    else
      let content := scanLoop scan.lines
      { ibr with hosts := content, hostsMTime := stat.ModTime, hostsSize := stat.Size }

/-- Spec side of the list text: every line followed by the separator, concatenated. -/
def linesWithSeparators : List String → String
  | [] => ""
  | line :: rest => line ++ "\n" ++ linesWithSeparators rest

/-! ## Configuration (`setup.go`) -/

/-- Go `caddyfile.Token`. -/
structure Token where
  File : String
  Line : Nat
  Text : String
deriving DecidableEq, Repr

/-- Go `caddyfile.Dispenser`: the tokens and the cursor (`-1` before the first token). -/
structure Dispenser where
  tokens : List Token
  cursor : Int
  nesting : Nat
deriving DecidableEq, Repr

/-- Go `(*Dispenser).Val`: the text of the token under the cursor, `""` outside the tokens. -/
def Dispenser.Val (d : Dispenser) : String :=
  if d.cursor < 0 ∨ d.cursor ≥ d.tokens.length then ""
  else match d.tokens.get? d.cursor.toNat with
    | some t => t.Text
    | none => ""

/-- Go `(*Dispenser).numLineBreaks`: the line breaks inside the token at an index. -/
def Dispenser.numLineBreaks (d : Dispenser) (i : Nat) : Nat :=
  match d.tokens.get? i with
  | some t => t.Text.data.count '\n'
  | none => 0

/-- Go `(*Dispenser).NextArg`: moves to the next token when it stands on the same line; tells
whether it moved. -/
def Dispenser.NextArg (d : Dispenser) : Bool × Dispenser :=
  if d.cursor < 0 then (true, { d with cursor := d.cursor + 1 })
  else if d.cursor ≥ d.tokens.length then (false, d)
  else
    match d.tokens.get? d.cursor.toNat, d.tokens.get? (d.cursor.toNat + 1) with
    | some t, some u =>
      if t.File = u.File ∧ t.Line + d.numLineBreaks d.cursor.toNat = u.Line then
        (true, { d with cursor := d.cursor + 1 })
      else (false, d)
    | _, _ => (false, d)

/-- Errors of the configuration parser. -/
inductive SetupError where
  /-- Go `c.ArgErr()`, raised at the token with the given text. -/
  | ArgErr (val : String)
  /-- Go `c.Errf(...)` with the formatted message. -/
  | Errf (msg : String)
  /-- Go `errors.New` and `errors.Errorf` with the message. -/
  | New (msg : String)
deriving DecidableEq, Repr

/-- Go `parseHostsPath`. -/
def parseHostsPath (ibr : IranBanResolver) (c : Dispenser) :
    Except SetupError (IranBanResolver × Dispenser) :=
  let step := c.NextArg
  let c := step.2
  if !step.1 then .error (SetupError.ArgErr c.Val)
  else
    let v := c.Val
    if len v < 2 then .error (SetupError.New "hosts file path not set!")
    else .ok ({ ibr with hostsPath := v }, c)

/-- Go `parseReload`. -/
def parseReload (lib : Lib) (ibr : IranBanResolver) (c : Dispenser) :
    Except SetupError (IranBanResolver × Dispenser) :=
  let step := c.NextArg
  let c := step.2
  if !step.1 then .error (SetupError.ArgErr c.Val)
  else
    let v := c.Val
    -- fall to default val
    if len v < 2 then .ok (ibr, c)
    else
      match lib.ParseDuration v with
      | .error _ => .error (SetupError.Errf ("invalid duration for reload \x27" ++ v ++ "\x27"))
      | .ok reload =>
        if reload < 0 then
          .error (SetupError.Errf ("invalid negative duration for reload \x27" ++ v ++ "\x27"))
        else .ok ({ ibr with reload := reload }, c)

/-- Go `parseResolveFrom`. -/
def parseResolveFrom (lib : Lib) (ibr : IranBanResolver) (c : Dispenser) :
    Except SetupError (IranBanResolver × Dispenser) :=
  let step := c.NextArg
  let c := step.2
  if !step.1 then .error (SetupError.ArgErr c.Val)
  else
    let v := c.Val
    -- fall to default val
    if len v < 2 then .ok (ibr, c)
    else
      match lib.ResolveUDPAddr "udp" v with
      | .error _ => .error (SetupError.ArgErr c.Val)
      | .ok ip => .ok ({ ibr with resolveFrom := ip }, c)

/-- Go `parseValue`. -/
def parseValue (lib : Lib) (v : String) (ibr : IranBanResolver) (c : Dispenser) :
    Except SetupError (IranBanResolver × Dispenser) :=
  if v = "hosts" then parseHostsPath ibr c
  else if v = "reload" then parseReload lib ibr c
  else if v = "resolve-from" then parseResolveFrom lib ibr c
  else .error (SetupError.New ("unknown property " ++ v))

/-- The goroutine `periodicHostsUpdate` starts: a ticker of the given period, every tick of
which calls `readHosts`, until the returned channel is closed. -/
structure Reloader where
  period : Duration
deriving DecidableEq, Repr

/-- Go `periodicHostsUpdate`: the timer task it starts, if any (the channel it returns only stops
that task). -/
def periodicHostsUpdate (ibr : IranBanResolver) : Option Reloader :=
  if ibr.reload = 0 then none
  else some { period := ibr.reload }

/-- The `readHosts` calls made by the timer task over its successive ticks, `ticks` giving the
file system found at each tick: the number of calls and the store they leave.  Without a
task there is no tick. -/
def runReloader (task : Option Reloader) (ticks : List FileSystem) (ibr : IranBanResolver) :
    Nat × IranBanResolver :=
  match task with
  | none => (0, ibr)
  | some _ => ticks.foldl (fun acc fs => (acc.1 + 1, readHosts fs acc.2)) (0, ibr)

/-! ## Sample data -/

/-- Sample collaborators: an ASCII lower-casing, names already in presentation form, an
upstream at `8.8.8.8:53` that answers every question with one record, and a duration parser
giving the value of `time.ParseDuration` on the literals `0`, `0s`, `0ms`, `5s` and `-1s`. -/
def sampleLib : Lib :=
  { ToLower := fun s => ⟨s.data.map Char.toLower⟩,
    NameString := id,
    Exchange := fun m a =>
      if a = "8.8.8.8:53" then
        .ok { Msg.new.SetReply m with
              Answer := m.Question.map fun q => ⟨q.Name, q.Qtype, q.Qclass, 300, "192.0.2.1"⟩ }
      else .error "i/o timeout",
    ParseDuration := fun v =>
      if v = "0" ∨ v = "0s" ∨ v = "0ms" then .ok 0
      else if v = "5s" then .ok (5 * Second)
      else if v = "-1s" then .ok (-Second)
      else .error ("time: invalid duration " ++ v),
    ResolveUDPAddr := fun _ a => .ok a }

/-- A next plugin that answers every request with status 5 (refused). -/
def nextRefused : Handler := { ServeDNS := fun _ => (5, none) }

/-- A standard query with one question. -/
def query (name : String) (qtype : Nat) : Msg :=
  { Msg.new with Id := 4660, RecursionDesired := true, Question := [⟨name, qtype, ClassINET⟩] }

/-- A store after a successful load of a list holding the line `blocked.example.`. -/
def sampleStore : IranBanResolver :=
  { New with hostsPath := "/etc/hosts-ban", hosts := "blocked.example.\n",
             hostsMTime := ⟨1700000000⟩, hostsSize := 17, Next := some nextRefused }

/-- The reply `ServeDNS` builds for the request `r` from the upstream answers. -/
def replyTo (r : Msg) (answers : List RR) : Msg :=
  { Msg.new.SetReply r with Authoritative := true, Answer := answers }

/-- A file system holding one file, at the path of the sample store. -/
def fileAt (f : File) : FileSystem := fun path => if path = "/etc/hosts-ban" then f else File.openFails

/-- The store of a freshly configured plugin, before any load. -/
def configured : IranBanResolver := { New with hostsPath := "/etc/hosts-ban" }

/-- Four versions of the list file; `versionB` has the stat of `versionA` and another
content, the scan of `versionCut` stops on an error after its first line. -/
def versionA : File := File.accessible ⟨⟨1700000000⟩, 6⟩ ⟨["a.com"], false⟩

def versionB : File := File.accessible ⟨⟨1700000000⟩, 6⟩ ⟨["b.com"], false⟩

def versionC : File := File.accessible ⟨⟨1700000600⟩, 20⟩ ⟨["b.com", "c.example.org"], false⟩

def versionCut : File := File.accessible ⟨⟨1700000600⟩, 40⟩ ⟨["a.example"], true⟩

/-- The dispenser standing on the name of a one-argument directive of the stanza. -/
def directive (name arg : String) : Dispenser :=
  { tokens := [⟨"Corefile", 2, name⟩, ⟨"Corefile", 2, arg⟩], cursor := 0, nesting := 1 }

/-! ## Theorems -/

theorem after_trace (t : List Event) (o : Outcome) : (o.after t).trace = t ++ o.trace := rfl

theorem after_rcode (t : List Event) (o : Outcome) : (o.after t).rcode = o.rcode := rfl

theorem after_err (t : List Event) (o : Outcome) : (o.after t).err = o.err := rfl

theorem written_NextOrFailure (name : String) (next : Option Handler) (r : Msg) :
    written (NextOrFailure name next r).trace = [] := by
  cases next <;> rfl

theorem exchanges_NextOrFailure (name : String) (next : Option Handler) (r : Msg) :
    exchanges (NextOrFailure name next r).trace = [] := by
  cases next <;> rfl

/-- Claim C1.  For every list text, every request (whatever its type) whose name, with the
trailing dot stripped, is not a substring of the list text, `ServeDNS` is exactly the call of
`plugin.NextOrFailure` on `ibr.Next`: it makes no upstream exchange, writes no reply and returns
the status and error of the next stage. -/
theorem C1_nonmember_defers (lib : Lib) (ibr : IranBanResolver) (r : Msg)
    (h : Contains ibr.hosts (TrimSuffix (Request.Name lib r) ".") = false) :
    ServeDNS lib ibr r = NextOrFailure ibr.Name ibr.Next r ∧
    exchanges (ServeDNS lib ibr r).trace = [] ∧
    written (ServeDNS lib ibr r).trace = [] := by
  have e : ServeDNS lib ibr r = NextOrFailure ibr.Name ibr.Next r := by
    simp [ServeDNS, h]
  rw [e]
  exact ⟨rfl, exchanges_NextOrFailure _ _ _, written_NextOrFailure _ _ _⟩

/-- The list `blocked.example.` and a query for `notblocked.example.`: deferred. -/
theorem C1_nonmember_defers_witness :
    Contains sampleStore.hosts
      (TrimSuffix (Request.Name sampleLib (query "notblocked.example." TypeA)) ".") = false ∧
    ServeDNS sampleLib sampleStore (query "notblocked.example." TypeA)
      = NextOrFailure sampleStore.Name sampleStore.Next (query "notblocked.example." TypeA) ∧
    exchanges (ServeDNS sampleLib sampleStore (query "notblocked.example." TypeA)).trace = [] ∧
    written (ServeDNS sampleLib sampleStore (query "notblocked.example." TypeA)).trace = [] :=
  ⟨by decide, C1_nonmember_defers sampleLib sampleStore (query "notblocked.example." TypeA) (by decide)⟩

theorem SetReply_Id (m r : Msg) : (m.SetReply r).Id = r.Id := by
  unfold Msg.SetReply; cases r.Question <;> simp only [] <;> split <;> rfl

theorem SetReply_Response (m r : Msg) : (m.SetReply r).Response = true := by
  unfold Msg.SetReply; cases r.Question <;> simp only [] <;> split <;> rfl

theorem SetReply_Question (r : Msg) : (Msg.new.SetReply r).Question = r.Question.take 1 := by
  unfold Msg.SetReply
  cases r.Question with
  | nil => simp only []; split <;> rfl
  | cons q qs => rfl

theorem forward_ok (lib : Lib) (ibr : IranBanResolver) (qname : String) (r resp : Msg)
    (h : lib.Exchange r ibr.resolveFrom = .ok resp) :
    forward lib ibr qname r =
      { trace := [Event.Exchange r ibr.resolveFrom, Event.WriteMsg (replyTo r resp.Answer)],
        rcode := RcodeSuccess, err := none } := by
  simp [forward, h, respond, Outcome.after, replyTo]

theorem forward_error (lib : Lib) (ibr : IranBanResolver) (qname : String) (r : Msg) (e : Error)
    (h : lib.Exchange r ibr.resolveFrom = .error e) :
    forward lib ibr qname r =
      (NextOrFailure ibr.Name ibr.Next r).after
        [Event.Exchange r ibr.resolveFrom, Event.Printf (errorLine qname ibr.resolveFrom)] := by
  simp [forward, h]

theorem ServeDNS_member_forward (lib : Lib) (ibr : IranBanResolver) (r : Msg)
    (hmem : Contains ibr.hosts (TrimSuffix (Request.Name lib r) ".") = true)
    (htype : Request.QType r = TypeA ∨ Request.QType r = TypeAAAA) :
    ServeDNS lib ibr r =
      (forward lib ibr (Request.Name lib r) r).after
        [Event.Printf (infoLine (Request.Name lib r) ibr.resolveFrom)] := by
  rcases htype with ht | ht <;> simp [ServeDNS, hmem, ht]

theorem ServeDNS_member_other (lib : Lib) (ibr : IranBanResolver) (r : Msg)
    (hmem : Contains ibr.hosts (TrimSuffix (Request.Name lib r) ".") = true)
    (h1 : Request.QType r ≠ TypeA) (h2 : Request.QType r ≠ TypeAAAA) :
    ServeDNS lib ibr r =
      (NextOrFailure ibr.Name ibr.Next r).after
        [Event.Printf (infoLine (Request.Name lib r) ibr.resolveFrom)] := by
  simp [ServeDNS, hmem, h1, h2]

theorem exchanges_append (a b : List Event) : exchanges (a ++ b) = exchanges a ++ exchanges b := by
  simp [exchanges, List.filterMap_append]

/-- The run of `ServeDNS` on a listed name of type A or AAAA with a successful exchange. -/
theorem C2_reply (lib : Lib) (ibr : IranBanResolver) (r resp : Msg)
    (hmem : Contains ibr.hosts (TrimSuffix (Request.Name lib r) ".") = true)
    (htype : Request.QType r = TypeA ∨ Request.QType r = TypeAAAA)
    (hup : lib.Exchange r ibr.resolveFrom = .ok resp) :
    written (ServeDNS lib ibr r).trace = [replyTo r resp.Answer] ∧
    ((replyTo r resp.Answer).Id = r.Id ∧
      (replyTo r resp.Answer).Question = r.Question.take 1 ∧
      (replyTo r resp.Answer).Response = true) ∧
    (replyTo r resp.Answer).Authoritative = true ∧
    (replyTo r resp.Answer).Answer = resp.Answer ∧
    deferred (ServeDNS lib ibr r).trace = [] ∧
    (ServeDNS lib ibr r).rcode = RcodeSuccess ∧
    (ServeDNS lib ibr r).err = none := by
  have e : ServeDNS lib ibr r =
      { trace := [Event.Printf (infoLine (Request.Name lib r) ibr.resolveFrom),
                  Event.Exchange r ibr.resolveFrom, Event.WriteMsg (replyTo r resp.Answer)],
        rcode := RcodeSuccess, err := none } := by
    rcases htype with ht | ht <;>
      simp [ServeDNS, hmem, ht, forward_ok lib ibr _ r resp hup, Outcome.after]
  rw [e]
  refine ⟨rfl, ⟨?_, ?_, ?_⟩, rfl, rfl, rfl, rfl, rfl⟩
  · exact SetReply_Id _ _
  · exact SetReply_Question _
  · exact SetReply_Response _ _

/-- Claim C2.  For a request whose dot-stripped name is a substring of the list text and whose
type is A or AAAA, when the upstream exchange succeeds with `resp`, `ServeDNS` writes exactly one
message, `replyTo r resp.Answer`; that message has the id of the request, its (first) question,
the response bit and the authoritative bit, and its answer section is `resp.Answer`; the next
stage is not called and the result is `(RcodeSuccess, nil)`. -/
theorem C2_member_address_reply (lib : Lib) (ibr : IranBanResolver) (r resp : Msg)
    (hmem : Contains ibr.hosts (TrimSuffix (Request.Name lib r) ".") = true)
    (htype : Request.QType r = TypeA ∨ Request.QType r = TypeAAAA)
    (hup : lib.Exchange r ibr.resolveFrom = .ok resp) :
    written (ServeDNS lib ibr r).trace = [replyTo r resp.Answer] ∧
    ((replyTo r resp.Answer).Id = r.Id ∧
      (replyTo r resp.Answer).Question = r.Question.take 1 ∧
      (replyTo r resp.Answer).Response = true) ∧
    (replyTo r resp.Answer).Authoritative = true ∧
    (replyTo r resp.Answer).Answer = resp.Answer ∧
    deferred (ServeDNS lib ibr r).trace = [] ∧
    (ServeDNS lib ibr r).rcode = RcodeSuccess ∧
    (ServeDNS lib ibr r).err = none :=
  C2_reply lib ibr r resp hmem htype hup

/-- The list `blocked.example.`, an A query for that name and an upstream answering with one A
record: one authoritative reply carrying that record. -/
theorem C2_member_address_reply_witness :
    written (ServeDNS sampleLib sampleStore (query "blocked.example." TypeA)).trace
      = [{ Msg.new with
            Id := 4660, Response := true, Authoritative := true, RecursionDesired := true,
            Question := [⟨"blocked.example.", TypeA, ClassINET⟩],
            Answer := [⟨"blocked.example.", TypeA, ClassINET, 300, "192.0.2.1"⟩] }] ∧
    (ServeDNS sampleLib sampleStore (query "blocked.example." TypeA)).rcode = RcodeSuccess :=
  have h := C2_member_address_reply sampleLib sampleStore (query "blocked.example." TypeA)
    { Msg.new.SetReply (query "blocked.example." TypeA) with
      Answer := [⟨"blocked.example.", TypeA, ClassINET, 300, "192.0.2.1"⟩] }
    (by decide) (Or.inl (by decide)) rfl
  ⟨h.1.trans (by decide), h.2.2.2.2.2.1⟩

/-- Claim C3.  For a request whose name is a member of the list, when the type is neither A nor
AAAA, or the upstream exchange returns an error, `ServeDNS` writes nothing, hands the request to
the next stage as in the non-member case and returns the status and error of
`plugin.NextOrFailure`; the upstream error is not returned. -/
theorem C3_member_without_reply_defers (lib : Lib) (ibr : IranBanResolver) (r : Msg)
    (hmem : Contains ibr.hosts (TrimSuffix (Request.Name lib r) ".") = true)
    (hno : (Request.QType r ≠ TypeA ∧ Request.QType r ≠ TypeAAAA) ∨
           ∃ e, lib.Exchange r ibr.resolveFrom = .error e) :
    written (ServeDNS lib ibr r).trace = [] ∧
    deferred (ServeDNS lib ibr r).trace = deferred (NextOrFailure ibr.Name ibr.Next r).trace ∧
    (ServeDNS lib ibr r).rcode = (NextOrFailure ibr.Name ibr.Next r).rcode ∧
    (ServeDNS lib ibr r).err = (NextOrFailure ibr.Name ibr.Next r).err := by
  have key : ∃ t : List Event, written t = [] ∧ deferred t = [] ∧
      ServeDNS lib ibr r = (NextOrFailure ibr.Name ibr.Next r).after t := by
    by_cases hA : Request.QType r = TypeA ∨ Request.QType r = TypeAAAA
    · rcases hno with ⟨h1, h2⟩ | ⟨e, he⟩
      · rcases hA with h | h
        · exact absurd h h1
        · exact absurd h h2
      · refine ⟨[Event.Printf (infoLine (Request.Name lib r) ibr.resolveFrom),
          Event.Exchange r ibr.resolveFrom,
          Event.Printf (errorLine (Request.Name lib r) ibr.resolveFrom)], rfl, rfl, ?_⟩
        rcases hA with ht | ht <;>
          simp [ServeDNS, hmem, ht, forward_error lib ibr _ r e he, Outcome.after]
    · refine ⟨[Event.Printf (infoLine (Request.Name lib r) ibr.resolveFrom)], rfl, rfl, ?_⟩
      have h1 : Request.QType r ≠ TypeA := fun h => hA (Or.inl h)
      have h2 : Request.QType r ≠ TypeAAAA := fun h => hA (Or.inr h)
      simp [ServeDNS, hmem, h1, h2]
  obtain ⟨t, hw, hd, e⟩ := key
  rw [e]
  refine ⟨?_, ?_, rfl, rfl⟩
  · rw [after_trace]
    simp only [written, List.filterMap_append] at hw ⊢
    rw [hw]
    exact written_NextOrFailure _ _ _
  · rw [after_trace]
    simp only [deferred, List.filterMap_append] at hd ⊢
    rw [hd]; rfl

/-- The list `blocked.example.` and a TXT query for that name: deferred. -/
theorem C3_member_without_reply_defers_witness :
    written (ServeDNS sampleLib sampleStore (query "blocked.example." TypeTXT)).trace = [] ∧
    deferred (ServeDNS sampleLib sampleStore (query "blocked.example." TypeTXT)).trace
      = [query "blocked.example." TypeTXT] ∧
    (ServeDNS sampleLib sampleStore (query "blocked.example." TypeTXT)).rcode = 5 ∧
    (ServeDNS sampleLib sampleStore (query "blocked.example." TypeTXT)).err = none :=
  C3_member_without_reply_defers sampleLib sampleStore (query "blocked.example." TypeTXT)
    (by decide) (Or.inl (by decide))

theorem Contains_empty (s : String) : Contains s "" = true := by
  simp [Contains]

/-- Claim C10.  A request whose name is `.` (the name of every message without a question)
has the empty dot-stripped name, which every list text contains, also the empty one: `ServeDNS`
takes the member path (its trace starts with the log line of a listed name); for type A or AAAA
it makes the upstream exchange and, when that succeeds, writes the authoritative reply and
returns `(RcodeSuccess, nil)` without calling the next stage. -/
theorem C10_root_name_is_member (lib : Lib) (ibr : IranBanResolver) (r : Msg)
    (hroot : Request.Name lib r = ".") :
    (∀ r0 : Msg, r0.Question = [] → Request.Name lib r0 = ".") ∧
    TrimSuffix (Request.Name lib r) "." = "" ∧
    Contains ibr.hosts (TrimSuffix (Request.Name lib r) ".") = true ∧
    (ServeDNS lib ibr r).trace.head? = some (Event.Printf (infoLine "." ibr.resolveFrom)) ∧
    (Request.QType r = TypeA ∨ Request.QType r = TypeAAAA →
      exchanges (ServeDNS lib ibr r).trace = [(r, ibr.resolveFrom)] ∧
      ∀ resp, lib.Exchange r ibr.resolveFrom = .ok resp →
        written (ServeDNS lib ibr r).trace = [replyTo r resp.Answer] ∧
        (replyTo r resp.Answer).Authoritative = true ∧
        deferred (ServeDNS lib ibr r).trace = [] ∧
        (ServeDNS lib ibr r).rcode = RcodeSuccess ∧ (ServeDNS lib ibr r).err = none) := by
  have htrim : TrimSuffix (Request.Name lib r) "." = "" := by rw [hroot]; decide
  have hmem : Contains ibr.hosts (TrimSuffix (Request.Name lib r) ".") = true := by
    rw [htrim]; exact Contains_empty _
  refine ⟨?_, htrim, hmem, ?_, ?_⟩
  · intro r0 h0
    simp [Request.Name, h0]
  · by_cases htype : Request.QType r = TypeA ∨ Request.QType r = TypeAAAA
    · rw [ServeDNS_member_forward lib ibr r hmem htype, hroot]; rfl
    · rw [ServeDNS_member_other lib ibr r hmem (fun h => htype (Or.inl h))
        (fun h => htype (Or.inr h)), hroot]; rfl
  · intro htype
    constructor
    · rw [ServeDNS_member_forward lib ibr r hmem htype]
      cases hup : lib.Exchange r ibr.resolveFrom with
      | error e =>
        rw [forward_error lib ibr _ r e hup, after_trace, after_trace, exchanges_append,
          exchanges_append, exchanges_NextOrFailure]
        rfl
      | ok resp =>
        rw [forward_ok lib ibr _ r resp hup]
        rfl
    · intro resp hup
      have h := C2_reply lib ibr r resp hmem htype hup
      exact ⟨h.1, h.2.2.1, h.2.2.2.2.1, h.2.2.2.2.2.1, h.2.2.2.2.2.2⟩

/-- An A query for `.` against the empty list text is answered from the upstream. -/
theorem C10_root_name_is_member_witness :
    Request.Name sampleLib (query "." TypeA) = "." ∧
    Contains "" (TrimSuffix (Request.Name sampleLib (query "." TypeA)) ".") = true ∧
    written (ServeDNS sampleLib { sampleStore with hosts := "" } (query "." TypeA)).trace
      = [replyTo (query "." TypeA) [⟨".", TypeA, ClassINET, 300, "192.0.2.1"⟩]] :=
  have h := C10_root_name_is_member sampleLib { sampleStore with hosts := "" } (query "." TypeA)
    (by decide)
  ⟨by decide, h.2.2.1,
    ((h.2.2.2.2 (Or.inl (by decide))).2
      { Msg.new.SetReply (query "." TypeA) with
        Answer := [⟨".", TypeA, ClassINET, 300, "192.0.2.1"⟩] } rfl).1⟩

theorem scanLoop_from (lines : List String) (content : String) :
    lines.foldl (fun content text => content ++ (text ++ "\n")) content
      = content ++ linesWithSeparators lines := by
  induction lines generalizing content with
  | nil => simp [linesWithSeparators]
  | cons l ls ih =>
    rw [List.foldl_cons, ih, linesWithSeparators, String.append_assoc]

/-- The scan loop builds every line followed by the separator. -/
theorem scanLoop_eq (lines : List String) : scanLoop lines = linesWithSeparators lines := by
  rw [scanLoop, scanLoop_from]; simp

theorem readHosts_hostsPath (fs : FileSystem) (ibr : IranBanResolver) :
    (readHosts fs ibr).hostsPath = ibr.hostsPath := by
  unfold readHosts
  split
  · rfl
  · rfl
  · simp only []; split <;> rfl

theorem Time.Equal_iff (t u : Time) : t.Equal u = true ↔ t = u := by
  cases t; cases u; simp [Time.Equal]

/-- The store after `readHosts` met an accessible file records that file's stat. -/
theorem readHosts_records_stat (fs : FileSystem) (ibr : IranBanResolver) (stat : FileInfo)
    (scan : Scan) (h : fs ibr.hostsPath = File.accessible stat scan) :
    (readHosts fs ibr).hostsMTime = stat.ModTime ∧ (readHosts fs ibr).hostsSize = stat.Size := by
  unfold readHosts
  rw [h]
  simp only []
  split
  · rename_i hc
    simp only [Bool.and_eq_true, Time.Equal_iff, beq_iff_eq] at hc
    exact hc
  · exact ⟨rfl, rfl⟩

/-- A stale stat makes `readHosts` replace the list by what the scan yields. -/
theorem readHosts_reloads (fs : FileSystem) (ibr : IranBanResolver) (stat : FileInfo)
    (scan : Scan) (h : fs ibr.hostsPath = File.accessible stat scan)
    (hchg : ibr.hostsMTime ≠ stat.ModTime ∨ ibr.hostsSize ≠ stat.Size) :
    readHosts fs ibr =
      { ibr with hosts := scanLoop scan.lines, hostsMTime := stat.ModTime,
                 hostsSize := stat.Size } := by
  unfold readHosts
  rw [h]
  simp only []
  split
  · rename_i hc
    simp only [Bool.and_eq_true, Time.Equal_iff, beq_iff_eq] at hc
    rcases hchg with h1 | h1
    · exact absurd hc.1 h1
    · exact absurd hc.2 h1
  · rfl

/-- A matching stat makes `readHosts` return without a change. -/
theorem readHosts_fresh (fs : FileSystem) (ibr : IranBanResolver) (stat : FileInfo)
    (scan : Scan) (h : fs ibr.hostsPath = File.accessible stat scan)
    (hm : ibr.hostsMTime = stat.ModTime) (hs : ibr.hostsSize = stat.Size) :
    readHosts fs ibr = ibr := by
  unfold readHosts
  rw [h]
  simp [hm, hs, Time.Equal]

theorem readHosts_inaccessible (fs : FileSystem) (ibr : IranBanResolver)
    (h : fs ibr.hostsPath = File.openFails ∨ fs ibr.hostsPath = File.statFails) :
    readHosts fs ibr = ibr := by
  unfold readHosts
  rcases h with h | h <;> rw [h]

/-- Claim C4.  For every store and every state of the file system, a second `readHosts` on the
same file system leaves `hosts`, `hostsMTime` and `hostsSize` (indeed the whole store) as the
first call left them. -/
theorem C4_readHosts_idempotent (fs : FileSystem) (ibr : IranBanResolver) :
    (readHosts fs (readHosts fs ibr)).hosts = (readHosts fs ibr).hosts ∧
    (readHosts fs (readHosts fs ibr)).hostsMTime = (readHosts fs ibr).hostsMTime ∧
    (readHosts fs (readHosts fs ibr)).hostsSize = (readHosts fs ibr).hostsSize ∧
    readHosts fs (readHosts fs ibr) = readHosts fs ibr := by
  have key : readHosts fs (readHosts fs ibr) = readHosts fs ibr := by
    cases h : fs ibr.hostsPath with
    | openFails => rw [readHosts_inaccessible fs ibr (Or.inl h), readHosts_inaccessible fs ibr (Or.inl h)]
    | statFails => rw [readHosts_inaccessible fs ibr (Or.inr h), readHosts_inaccessible fs ibr (Or.inr h)]
    | accessible stat scan =>
      have hp : fs (readHosts fs ibr).hostsPath = File.accessible stat scan := by
        rw [readHosts_hostsPath]; exact h
      have hr := readHosts_records_stat fs ibr stat scan h
      exact readHosts_fresh fs (readHosts fs ibr) stat scan hp hr.1 hr.2
  rw [key]
  exact ⟨rfl, rfl, rfl, rfl⟩

/-- Claim C5 fails when only the content differs: `versionB` has the modification time and
size of `versionA` and another line, and `readHosts` keeps the text loaded from `versionA`. -/
theorem C5_same_stat_not_reloaded :
    versionA ≠ versionB ∧
    (readHosts (fileAt versionA) configured).hosts = "a.com\n" ∧
    (readHosts (fileAt versionB) (readHosts (fileAt versionA) configured)).hosts = "a.com\n" ∧
    linesWithSeparators ["b.com"] = "b.com\n" ∧
    (readHosts (fileAt versionB) (readHosts (fileAt versionA) configured)).hosts
      ≠ linesWithSeparators ["b.com"] := by
  decide

/-- Claim C5, amended.  After a `readHosts` that met the accessible version `F1` of the file,
for every accessible version `F2` whose modification time or size differs from that of `F1` and
whose scan reaches the end of the file, the next `readHosts` sets `hosts` to the lines of `F2`,
each followed by the separator, and records the modification time and size of `F2`. -/
theorem C5_reload_picks_up_changes (fs1 fs2 : FileSystem) (ibr : IranBanResolver)
    (stat1 stat2 : FileInfo) (scan1 scan2 : Scan)
    (h1 : fs1 ibr.hostsPath = File.accessible stat1 scan1)
    (h2 : fs2 ibr.hostsPath = File.accessible stat2 scan2)
    (hchg : stat2.ModTime ≠ stat1.ModTime ∨ stat2.Size ≠ stat1.Size)
    (_hscan : scan2.failed = false) :
    (readHosts fs2 (readHosts fs1 ibr)).hosts = linesWithSeparators scan2.lines ∧
    (readHosts fs2 (readHosts fs1 ibr)).hostsMTime = stat2.ModTime ∧
    (readHosts fs2 (readHosts fs1 ibr)).hostsSize = stat2.Size := by
  have hr := readHosts_records_stat fs1 ibr stat1 scan1 h1
  have hp : fs2 (readHosts fs1 ibr).hostsPath = File.accessible stat2 scan2 := by
    rw [readHosts_hostsPath]; exact h2
  have hstale : (readHosts fs1 ibr).hostsMTime ≠ stat2.ModTime ∨
      (readHosts fs1 ibr).hostsSize ≠ stat2.Size := by
    rw [hr.1, hr.2]
    rcases hchg with h | h
    · exact Or.inl (fun e => h e.symm)
    · exact Or.inr (fun e => h e.symm)
  rw [readHosts_reloads fs2 _ stat2 scan2 hp hstale]
  exact ⟨scanLoop_eq _, rfl, rfl⟩

/-- From `versionA` to `versionC`: the two lines of `versionC` and its stat are loaded. -/
theorem C5_reload_picks_up_changes_witness :
    (readHosts (fileAt versionC) (readHosts (fileAt versionA) configured)).hosts
      = "b.com\nc.example.org\n" ∧
    (readHosts (fileAt versionC) (readHosts (fileAt versionA) configured)).hostsMTime
      = ⟨1700000600⟩ ∧
    (readHosts (fileAt versionC) (readHosts (fileAt versionA) configured)).hostsSize = 20 :=
  C5_reload_picks_up_changes (fileAt versionA) (fileAt versionC) configured
    ⟨⟨1700000000⟩, 6⟩ ⟨⟨1700000600⟩, 20⟩ ⟨["a.com"], false⟩ ⟨["b.com", "c.example.org"], false⟩
    rfl rfl (Or.inl (by decide)) rfl

/-- Claim C6.  When `os.Open` of `hostsPath` fails, or the stat of the opened file fails,
`readHosts` returns with `hosts`, `hostsMTime` and `hostsSize` unchanged, so the membership test
of every name and every run of `ServeDNS` are as before the call. -/
theorem C6_inaccessible_list_keeps_snapshot (fs : FileSystem) (ibr : IranBanResolver)
    (h : fs ibr.hostsPath = File.openFails ∨ fs ibr.hostsPath = File.statFails) :
    (readHosts fs ibr).hosts = ibr.hosts ∧
    (readHosts fs ibr).hostsMTime = ibr.hostsMTime ∧
    (readHosts fs ibr).hostsSize = ibr.hostsSize ∧
    (∀ name : String, Contains (readHosts fs ibr).hosts (TrimSuffix name ".")
        = Contains ibr.hosts (TrimSuffix name ".")) ∧
    (∀ (lib : Lib) (r : Msg), ServeDNS lib (readHosts fs ibr) r = ServeDNS lib ibr r) := by
  rw [readHosts_inaccessible fs ibr h]
  exact ⟨rfl, rfl, rfl, fun _ => rfl, fun _ _ => rfl⟩

/-- The list file is gone after a successful load: the snapshot stays and still matches. -/
theorem C6_inaccessible_list_keeps_snapshot_witness :
    (readHosts (fileAt File.openFails) sampleStore).hosts = "blocked.example.\n" ∧
    (readHosts (fileAt File.openFails) sampleStore).hostsMTime = ⟨1700000000⟩ ∧
    (readHosts (fileAt File.openFails) sampleStore).hostsSize = 17 ∧
    written (ServeDNS sampleLib (readHosts (fileAt File.openFails) sampleStore)
      (query "blocked.example." TypeA)).trace
      = written (ServeDNS sampleLib sampleStore (query "blocked.example." TypeA)).trace :=
  have h := C6_inaccessible_list_keeps_snapshot (fileAt File.openFails) sampleStore (Or.inl rfl)
  ⟨h.1, h.2.1, h.2.2.1, congrArg (fun o => written o.trace) (h.2.2.2.2 sampleLib _)⟩

/-- Claim C7, on the code: the scan of `versionCut` stops on an error after one line, and
`readHosts` replaces the snapshot `blocked.example.` by that one line and records the new
modification time and size; a second call reads nothing again, and the name listed before is
no longer a member. -/
theorem C7_failed_scan_replaces_snapshot :
    sampleStore.hosts = "blocked.example.\n" ∧
    (readHosts (fileAt versionCut) sampleStore).hosts = "a.example\n" ∧
    (readHosts (fileAt versionCut) sampleStore).hostsMTime = ⟨1700000600⟩ ∧
    (readHosts (fileAt versionCut) sampleStore).hostsSize = 40 ∧
    (readHosts (fileAt versionCut) (readHosts (fileAt versionCut) sampleStore)).hosts
      = "a.example\n" ∧
    Contains sampleStore.hosts (TrimSuffix "blocked.example." ".") = true ∧
    Contains (readHosts (fileAt versionCut) sampleStore).hosts
      (TrimSuffix "blocked.example." ".") = false := by
  decide

/-- No directive of the stanza touches the list text `hosts`. -/
theorem parseValue_hosts (lib : Lib) (v : String) (ibr ibr2 : IranBanResolver)
    (c c2 : Dispenser) (h : parseValue lib v ibr c = .ok (ibr2, c2)) :
    ibr2.hosts = ibr.hosts := by
  unfold parseValue at h
  split at h
  · unfold parseHostsPath at h
    simp only [] at h
    split at h
    · cases h
    · split at h
      · cases h
      · cases h; rfl
  · split at h
    · unfold parseReload at h
      simp only [] at h
      split at h
      · cases h
      · split at h
        · cases h; rfl
        · split at h
          · cases h
          · split at h
            · cases h
            · cases h; rfl
    · split at h
      · unfold parseResolveFrom at h
        simp only [] at h
        split at h
        · cases h
        · split at h
          · cases h; rfl
          · split at h
            · cases h
            · cases h; rfl
      · cases h

/-- Claim C8, on the code: `New` puts the text `/etc/hosts_dir/hosts-ban` into `hosts`, the
`hosts` directive sets `hostsPath` only, a failed first load leaves the text in place, and a
query for `etc.` is a member of it and is forwarded upstream. -/
theorem C8_list_text_starts_as_path :
    New.hosts = "/etc/hosts_dir/hosts-ban" ∧
    New.hosts ≠ "" ∧
    (parseValue sampleLib "hosts" New (directive "hosts" "/etc/hosts-ban")).toOption.map
        (fun p => (p.1.hostsPath, p.1.hosts))
      = some ("/etc/hosts-ban", "/etc/hosts_dir/hosts-ban") ∧
    (readHosts (fileAt File.openFails) configured).hosts = "/etc/hosts_dir/hosts-ban" ∧
    Contains configured.hosts (TrimSuffix (Request.Name sampleLib (query "etc." TypeA)) ".")
      = true ∧
    exchanges (ServeDNS sampleLib configured (query "etc." TypeA)).trace
      = [(query "etc." TypeA, "8.8.8.8:53")] := by
  decide

/-- Claim C9 fails at the argument `0`: it is a valid duration denoting zero, of length one,
so `parseReload` returns without an error and without setting `reload`, which stays at five
seconds, and `periodicHostsUpdate` starts the timer task. -/
theorem C9_single_zero_keeps_default :
    sampleLib.ParseDuration "0" = .ok 0 ∧
    len "0" = 1 ∧
    (parseReload sampleLib New (directive "reload" "0")).toOption.map (fun p => p.1.reload)
      = some (5 * Second) ∧
    (parseReload sampleLib New (directive "reload" "0")).toOption.map
        (fun p => periodicHostsUpdate p.1)
      = some (some ⟨5000000000⟩) :=
  ⟨rfl, by decide, by decide, by decide⟩

/-- Claim C9, amended.  For every `reload` argument of at least two bytes that
`time.ParseDuration` accepts with value zero, `parseReload` succeeds and sets `reload` to zero;
and for every store whose `reload` is zero `periodicHostsUpdate` starts no timer task, so no
tick ever calls `readHosts`. -/
theorem C9_zero_reload_disables_ticker (lib : Lib) (ibr : IranBanResolver) (c : Dispenser)
    (s : IranBanResolver)
    (harg : c.NextArg.1 = true)
    (hlen : 2 ≤ len c.NextArg.2.Val)
    (hzero : lib.ParseDuration c.NextArg.2.Val = .ok 0)
    (hs : s.reload = 0) :
    parseReload lib ibr c = .ok ({ ibr with reload := 0 }, c.NextArg.2) ∧
    periodicHostsUpdate { ibr with reload := 0 } = none ∧
    periodicHostsUpdate s = none ∧
    ∀ ticks : List FileSystem, runReloader (periodicHostsUpdate s) ticks s = (0, s) := by
  refine ⟨?_, ?_, ?_, ?_⟩
  · unfold parseReload
    simp [harg, Nat.not_lt.mpr hlen, hzero]
  · simp [periodicHostsUpdate]
  · simp [periodicHostsUpdate, hs]
  · intro ticks
    simp [periodicHostsUpdate, hs, runReloader]

/-- The argument `0s`. -/
theorem C9_zero_reload_disables_ticker_witness :
    parseReload sampleLib New (directive "reload" "0s")
      = .ok ({ New with reload := 0 }, (directive "reload" "0s").NextArg.2) ∧
    periodicHostsUpdate { New with reload := 0 } = none ∧
    runReloader (periodicHostsUpdate { sampleStore with reload := 0 })
        [fileAt versionA, fileAt versionC] { sampleStore with reload := 0 }
      = (0, { sampleStore with reload := 0 }) :=
  have h := C9_zero_reload_disables_ticker sampleLib New (directive "reload" "0s")
    { sampleStore with reload := 0 } (by decide) (by decide) rfl rfl
  ⟨h.1, h.2.1, h.2.2.2 _⟩

end IranBan
